import Mathlib

/-!
Shallow embedding of `crates/bevy_render/src/texture/image_loader.rs`.

The file under verification is an asset-loader adapter: it resolves an image
container type from per-load settings or the file extension, reads the whole
byte stream, delegates decoding to the external `Image::from_buffer`, and wraps
failures in typed errors.  Compile-time `#[cfg(feature = ...)]` choices are
modelled by a `Features` record of booleans; external collaborator types
(`ImageFormat`, the decoded `Image`, `TextureError` and I/O error payloads,
`Image::from_buffer` itself, `CompressedImageFormats::from_features`) are kept
abstract: type parameters or function parameters, since their definitions are
outside the file under verification.
-/

set_option maxRecDepth 8000
set_option maxHeartbeats 1000000

namespace ImageLoaderSpec

/-- The compile-time feature flags referenced by the `#[cfg(feature = ...)]`
attributes in the source file.  Each field is one cargo feature. -/
structure Features where
  basis_universal : Bool
  bmp : Bool
  png : Bool
  dds : Bool
  tga : Bool
  jpeg : Bool
  ktx2 : Bool
  webp : Bool
  pnm : Bool
deriving DecidableEq, Repr

/-- `IMG_FILE_EXTENSIONS`: the fixed 13-entry extension table, each entry
present exactly when its `#[cfg(feature = ...)]` gate is compiled in, in the
source order. -/
def IMG_FILE_EXTENSIONS (cfg : Features) : List String :=
  (if cfg.basis_universal then ["basis"] else []) ++
  (if cfg.bmp then ["bmp"] else []) ++
  (if cfg.png then ["png"] else []) ++
  (if cfg.dds then ["dds"] else []) ++
  (if cfg.tga then ["tga"] else []) ++
  (if cfg.jpeg then ["jpg"] else []) ++
  (if cfg.jpeg then ["jpeg"] else []) ++
  (if cfg.ktx2 then ["ktx2"] else []) ++
  (if cfg.webp then ["webp"] else []) ++
  (if cfg.pnm then ["pam"] else []) ++
  (if cfg.pnm then ["pbm"] else []) ++
  (if cfg.pnm then ["pgm"] else []) ++
  (if cfg.pnm then ["ppm"] else [])

/-- `DisabledExtension`: static pairing of a file extension with the cargo
feature that would enable it. -/
structure DisabledExtension where
  extension : String
  feature : String
deriving DecidableEq, Repr

/-- `DISABLED_IMG_FILE_EXTENSIONS`: each entry present exactly when its
feature gate is compiled OUT (the `disabled_ext!` expansion uses
`#[cfg(not(feature = ...))]`), in the source order. -/
def DISABLED_IMG_FILE_EXTENSIONS (cfg : Features) : List DisabledExtension :=
  (if cfg.basis_universal then [] else [⟨"basis", "basis-universal"⟩]) ++
  (if cfg.bmp then [] else [⟨"bmp", "bmp"⟩]) ++
  (if cfg.png then [] else [⟨"png", "png"⟩]) ++
  (if cfg.dds then [] else [⟨"dds", "dds"⟩]) ++
  (if cfg.tga then [] else [⟨"tga", "tga"⟩]) ++
  (if cfg.jpeg then [] else [⟨"jpg", "jpeg"⟩]) ++
  (if cfg.jpeg then [] else [⟨"jpeg", "jpeg"⟩]) ++
  (if cfg.ktx2 then [] else [⟨"ktx2", "ktx2"⟩]) ++
  (if cfg.webp then [] else [⟨"webp", "webp"⟩]) ++
  (if cfg.pnm then [] else [⟨"pam", "pnm"⟩]) ++
  (if cfg.pnm then [] else [⟨"pbm", "pnm"⟩]) ++
  (if cfg.pnm then [] else [⟨"pgm", "pnm"⟩]) ++
  (if cfg.pnm then [] else [⟨"ppm", "pnm"⟩])

/-- `ImageFormatSetting`: either infer the format from the extension, or an
explicit format.  `F` stands for the external `ImageFormat` enum. -/
inductive ImageFormatSetting (F : Type) where
  | FromExtension
  | Format (format : F)
deriving DecidableEq, Repr

/-- `ImageSampler` (external type): the loader only ever names its `Default`
variant; other sampler descriptors are abstracted by a numeric payload. -/
inductive ImageSampler where
  | Default
  | Descriptor (descriptor : Nat)
deriving DecidableEq, Repr

/-- `RenderAssetPersistencePolicy` (external type): whether the CPU-side pixel
data is kept after GPU upload. -/
inductive RenderAssetPersistencePolicy where
  | Keep
  | Unload
deriving DecidableEq, Repr

/-- `ImageLoaderSettings`: the per-load settings record. -/
structure ImageLoaderSettings (F : Type) where
  format : ImageFormatSetting F
  is_srgb : Bool
  sampler : ImageSampler
  cpu_persistent_access : RenderAssetPersistencePolicy
deriving DecidableEq, Repr

/-- `impl Default for ImageLoaderSettings`: the derived default of
`ImageFormatSetting` is its `#[default]` variant `FromExtension`. -/
def ImageLoaderSettings.default (F : Type) : ImageLoaderSettings F :=
  { format := ImageFormatSetting.FromExtension,
    is_srgb := true,
    sampler := ImageSampler.Default,
    cpu_persistent_access := RenderAssetPersistencePolicy.Keep }

/-- `CompressedImageFormats` (external bitflags type): a set of compressed
texture formats, abstracted as a bit mask. -/
structure CompressedImageFormats where
  bits : Nat
deriving DecidableEq, Repr

/-- `CompressedImageFormats::NONE`: the empty set of the bitflags type. -/
def CompressedImageFormats.NONE : CompressedImageFormats := ⟨0⟩

/-- `ImageLoader`: holds only the supported compressed-format set fixed at
construction. -/
structure ImageLoader where
  supported_compressed_formats : CompressedImageFormats
deriving DecidableEq, Repr

/-- `TextureError` (external type): observed by the loader only through its
display string, so it is modelled as that string. -/
abbrev TextureError := String

/-- `std::io::Error` payload, likewise modelled by its display string. -/
abbrev IoError := String

/-- `FileTextureError`: the decode error together with the source path. -/
structure FileTextureError where
  error : TextureError
  path : String
deriving DecidableEq, Repr

/-- `impl Display for FileTextureError`: the `write!` format string of the
source, with the two fields interpolated. -/
def FileTextureError.display (e : FileTextureError) : String :=
  "Error reading image file " ++ e.path ++ ": " ++ e.error ++
    ", this is an error in \x60bevy_render\x60."

/-- `ImageLoaderError`: the two failure kinds of a load call. -/
inductive ImageLoaderError where
  | Io (error : IoError)
  | FileTexture (error : FileTextureError)
deriving DecidableEq, Repr

/-- `ImageType` (external type): a container type given either by an extension
string or by an explicit format. -/
inductive ImageType (F : Type) where
  | Extension (extension : String)
  | Format (format : F)
deriving DecidableEq, Repr

/-- `OsStr`: `to_str` yields the string when the bytes are valid UTF-8 and
`none` otherwise. -/
structure OsStr where
  to_str : Option String
deriving DecidableEq, Repr

/-- The target's file path as the loader observes it: `Path::extension()`
(absent for an extensionless path) and `Path::display()`. -/
structure AssetPath where
  extension : Option OsStr
  display : String
deriving DecidableEq, Repr

/-- `LoadContext`: the loader only reads `load_context.path()`. -/
structure LoadContext where
  path : AssetPath
deriving DecidableEq, Repr

/-- The byte reader, observed through `read_to_end`: either the full byte
stream or an I/O error. -/
abbrev Reader := Except IoError (List Nat)

/-- The type of the external `Image::from_buffer` decode function: raw bytes,
image type, supported compressed formats, `is_srgb`, sampler, retention
policy, producing a decoded image `I` or a `TextureError`. -/
abbrev FromBuffer (F I : Type) :=
  List Nat → ImageType F → CompressedImageFormats → Bool → ImageSampler →
    RenderAssetPersistencePolicy → Except TextureError I

/-- The outcome of one load call: a panic (from `unwrap`), success, or a typed
error. -/
inductive LoadResult (I : Type) where
  | panic
  | ok (image : I)
  | err (error : ImageLoaderError)
deriving DecidableEq, Repr

/-- The `match settings.format` expression of `ImageLoader::load` binding
`image_type`. -/
def resolved_image_type {F : Type} (setting : ImageFormatSetting F)
    (ext : String) : ImageType F :=
  match setting with
  | .FromExtension => ImageType.Extension ext
  | .Format format => ImageType.Format format

/-- `ImageLoader::load`: first the two `unwrap`s on the path's extension (a
panic when the path has no extension or it is not valid UTF-8), then
`read_to_end` (`?` propagates an I/O error into `ImageLoaderError::Io`), then
the delegation to `Image::from_buffer`, whose error is wrapped with
`load_context.path().display()` into a `FileTextureError`. -/
def ImageLoader.load {F I : Type} (from_buffer : FromBuffer F I)
    (loader : ImageLoader) (reader : Reader) (settings : ImageLoaderSettings F)
    (load_context : LoadContext) : LoadResult I :=
  match load_context.path.extension with
  | none => LoadResult.panic
  | some os =>
    match os.to_str with
    | none => LoadResult.panic
    | some ext =>
      match reader with
      | .error e => LoadResult.err (ImageLoaderError.Io e)
      | .ok bytes =>
        let image_type := resolved_image_type settings.format ext
        match from_buffer bytes image_type loader.supported_compressed_formats
            settings.is_srgb settings.sampler settings.cpu_persistent_access with
        | .ok image => LoadResult.ok image
        | .error err =>
          LoadResult.err (ImageLoaderError.FileTexture
            ⟨err, load_context.path.display⟩)

/-- `ImageLoader::load` takes `&self` and `&settings` (shared, immutable
borrows); state-passing rendering of the call: the borrows are returned to the
caller unchanged alongside the result, faithful to the source, which contains
no `&mut self` and no interior mutability. -/
def ImageLoader.load_call {F I : Type} (from_buffer : FromBuffer F I)
    (loader : ImageLoader) (reader : Reader) (settings : ImageLoaderSettings F)
    (load_context : LoadContext) :
    ImageLoader × ImageLoaderSettings F × LoadResult I :=
  (loader, settings,
    ImageLoader.load from_buffer loader reader settings load_context)

/-- `ImageLoader::extensions`: returns `IMG_FILE_EXTENSIONS`. -/
def ImageLoader.extensions (cfg : Features) (_loader : ImageLoader) :
    List String :=
  IMG_FILE_EXTENSIONS cfg

/-- `RenderDevice` (external resource): observed only through `features()`,
the wgpu feature flags, abstracted as a bit mask. -/
structure RenderDevice where
  features : Nat
deriving DecidableEq, Repr

/-- `AssetServer` (external resource): observed only through
`register_extension_hint`; modelled by the list of registered
(extension, hint) pairs. -/
structure AssetServer where
  hints : List (String × String)
deriving DecidableEq, Repr

/-- `AssetServer::register_extension_hint`: records one hint. -/
def AssetServer.register_extension_hint (server : AssetServer)
    (ext hint : String) : AssetServer :=
  ⟨server.hints ++ [(ext, hint)]⟩

/-- `World` as the loader observes it: the two optional resources it
queries. -/
structure World where
  render_device : Option RenderDevice
  asset_server : Option AssetServer
deriving DecidableEq, Repr

/-- The hint string `format!("enabling bevy feature '{}'", feature)`. -/
def feature_hint (feature : String) : String :=
  "enabling bevy feature \x27" ++ feature ++ "\x27"

/-- `ImageLoader::from_world`: the supported formats come from the optional
render device (`from_features` of its feature flags, else `NONE`); when the
asset server is present, one hint per `DISABLED_IMG_FILE_EXTENSIONS` entry is
registered on it.  `from_features` stands for the external
`CompressedImageFormats::from_features`.  Returns the loader and the world
after the hint registrations. -/
def ImageLoader.from_world (cfg : Features)
    (from_features : Nat → CompressedImageFormats) (world : World) :
    ImageLoader × World :=
  let supported_compressed_formats :=
    match world.render_device with
    | some render_device => from_features render_device.features
    | none => CompressedImageFormats.NONE
  let world2 :=
    match world.asset_server with
    | some asset_server =>
      { world with
        asset_server := some ((DISABLED_IMG_FILE_EXTENSIONS cfg).foldl
          (fun s d => s.register_extension_hint d.extension
            (feature_hint d.feature)) asset_server) }
    | none => world
  (⟨supported_compressed_formats⟩, world2)

/-- The (extension, hint) pairs that one `from_world` call registers. -/
def hint_table (cfg : Features) : List (String × String) :=
  (DISABLED_IMG_FILE_EXTENSIONS cfg).map
    (fun d => (d.extension, feature_hint d.feature))

/-- A feature configuration with every image-format feature enabled, used to
instantiate theorems at concrete inputs. -/
def cfg_all : Features := ⟨true, true, true, true, true, true, true, true, true⟩

/-- A feature configuration with only the `png` feature enabled, used to
instantiate theorems at concrete inputs. -/
def cfg_png_only : Features :=
  ⟨false, false, true, false, false, false, false, false, false⟩

theorem string_append_assoc (a b c : String) : a ++ b ++ c = a ++ (b ++ c) :=
  String.ext (by simp [String.data_append, List.append_assoc])

theorem mem_ite_single {α : Type} (e x : α) (b : Bool) :
    e ∈ (if b then [x] else ([] : List α)) ↔ b = true ∧ e = x := by
  cases b <;> simp

theorem mem_ite_single_append {α : Type} (e x : α) (b : Bool) (l : List α) :
    e ∈ (if b then [x] else ([] : List α)) ++ l ↔
      (b = true ∧ e = x) ∨ e ∈ l := by
  cases b <;> simp

theorem mem_ite_disabled {α : Type} (e x : α) (b : Bool) :
    e ∈ (if b then ([] : List α) else [x]) ↔ b = false ∧ e = x := by
  cases b <;> simp

theorem mem_ite_disabled_append {α : Type} (e x : α) (b : Bool) (l : List α) :
    e ∈ (if b then ([] : List α) else [x]) ++ l ↔
      (b = false ∧ e = x) ∨ e ∈ l := by
  cases b <;> simp

/-- Claim C1: the image container type is resolved from the settings: under
`FromExtension` the type passed to the decode call is the path's extension
string, and under an explicit `Format f` it is `f`, the extension being
ignored (the conclusion of the second part does not depend on `ext`).  The
decode function is instantiated with one that returns the image type it
receives, so the conclusion exposes exactly the type used for decoding. -/
theorem C1_image_type_resolution {F : Type} (loader : ImageLoader)
    (bytes : List Nat) (settings : ImageLoaderSettings F) (ctx : LoadContext)
    (os : OsStr) (ext : String)
    (hext : ctx.path.extension = some os) (hstr : os.to_str = some ext) :
    (settings.format = ImageFormatSetting.FromExtension →
      ImageLoader.load (fun _ t _ _ _ _ => Except.ok t) loader (Except.ok bytes)
        settings ctx = LoadResult.ok (ImageType.Extension ext)) ∧
    (∀ f, settings.format = ImageFormatSetting.Format f →
      ImageLoader.load (fun _ t _ _ _ _ => Except.ok t) loader (Except.ok bytes)
        settings ctx = LoadResult.ok (ImageType.Format f)) := by
  constructor
  · intro hf
    simp [ImageLoader.load, hext, hstr, resolved_image_type, hf]
  · intro f hf
    simp [ImageLoader.load, hext, hstr, resolved_image_type, hf]

theorem C1_witness :
    (ImageLoader.load (F := Nat) (fun _ t _ _ _ _ => Except.ok t) ⟨⟨0⟩⟩
      (Except.ok [7]) (ImageLoaderSettings.default Nat)
      ⟨⟨some ⟨some "png"⟩, "a.png"⟩⟩
      = LoadResult.ok (ImageType.Extension "png")) ∧
    (ImageLoader.load (F := Nat) (fun _ t _ _ _ _ => Except.ok t) ⟨⟨0⟩⟩
      (Except.ok [7])
      ⟨ImageFormatSetting.Format 5, true, ImageSampler.Default,
        RenderAssetPersistencePolicy.Keep⟩
      ⟨⟨some ⟨some "png"⟩, "a.png"⟩⟩
      = LoadResult.ok (ImageType.Format 5)) :=
  ⟨(C1_image_type_resolution ⟨⟨0⟩⟩ [7] (ImageLoaderSettings.default Nat)
      ⟨⟨some ⟨some "png"⟩, "a.png"⟩⟩ ⟨some "png"⟩ "png" rfl rfl).1 rfl,
   (C1_image_type_resolution ⟨⟨0⟩⟩ [7]
      ⟨ImageFormatSetting.Format 5, true, ImageSampler.Default,
        RenderAssetPersistencePolicy.Keep⟩
      ⟨⟨some ⟨some "png"⟩, "a.png"⟩⟩ ⟨some "png"⟩ "png" rfl rfl).2 5 rfl⟩

/-- Claim C2: the load reads the entire byte stream and delegates to the
decode function with exactly the raw bytes, the resolved image type, the
loader's supported compressed-format set, `is_srgb`, the sampler and the
retention policy (first part: the decode function is instantiated with one
that records all six arguments, so the conclusion lists exactly what was
passed); and on decode success the produced image is returned unchanged
(second part, for an arbitrary decode function). -/
theorem C2_delegation {F I : Type} (from_buffer : FromBuffer F I)
    (loader : ImageLoader) (bytes : List Nat) (settings : ImageLoaderSettings F)
    (ctx : LoadContext) (os : OsStr) (ext : String)
    (hext : ctx.path.extension = some os) (hstr : os.to_str = some ext) :
    (ImageLoader.load (fun b t c s sp p => Except.ok (b, t, c, s, sp, p))
        loader (Except.ok bytes) settings ctx
      = LoadResult.ok (bytes, resolved_image_type settings.format ext,
          loader.supported_compressed_formats, settings.is_srgb,
          settings.sampler, settings.cpu_persistent_access)) ∧
    (∀ image,
      from_buffer bytes (resolved_image_type settings.format ext)
          loader.supported_compressed_formats settings.is_srgb settings.sampler
          settings.cpu_persistent_access = Except.ok image →
      ImageLoader.load from_buffer loader (Except.ok bytes) settings ctx
        = LoadResult.ok image) := by
  constructor
  · simp [ImageLoader.load, hext, hstr]
  · intro image himg
    simp [ImageLoader.load, hext, hstr, himg]

theorem C2_witness :
    ImageLoader.load (F := Nat)
        (fun b t c s sp p => Except.ok (b, t, c, s, sp, p)) ⟨⟨3⟩⟩
        (Except.ok [1, 2, 3]) (ImageLoaderSettings.default Nat)
        ⟨⟨some ⟨some "png"⟩, "a.png"⟩⟩
      = LoadResult.ok ([1, 2, 3], ImageType.Extension "png", ⟨3⟩, true,
          ImageSampler.Default, RenderAssetPersistencePolicy.Keep) :=
  (C2_delegation (I := Nat) (fun _ _ _ _ _ _ => Except.ok 0) ⟨⟨3⟩⟩ [1, 2, 3]
    (ImageLoaderSettings.default Nat) ⟨⟨some ⟨some "png"⟩, "a.png"⟩⟩
    ⟨some "png"⟩ "png" rfl rfl).1

/-- Claim C3: when the decode fails, load returns the `FileTexture` error
wrapping the decode error together with the context path's display string, and
the display message of that error contains the path and ends with the note
that this is an error in the library. -/
theorem C3_decode_failure_error {F I : Type} (from_buffer : FromBuffer F I)
    (loader : ImageLoader) (bytes : List Nat) (settings : ImageLoaderSettings F)
    (ctx : LoadContext) (os : OsStr) (ext : String) (terr : TextureError)
    (hext : ctx.path.extension = some os) (hstr : os.to_str = some ext)
    (herr : from_buffer bytes (resolved_image_type settings.format ext)
        loader.supported_compressed_formats settings.is_srgb settings.sampler
        settings.cpu_persistent_access = Except.error terr) :
    ImageLoader.load from_buffer loader (Except.ok bytes) settings ctx
      = LoadResult.err (ImageLoaderError.FileTexture ⟨terr, ctx.path.display⟩) ∧
    (∃ pre post, FileTextureError.display ⟨terr, ctx.path.display⟩
        = pre ++ ctx.path.display ++ post) ∧
    (∃ pre, FileTextureError.display ⟨terr, ctx.path.display⟩
        = pre ++ ", this is an error in \x60bevy_render\x60.") := by
  refine ⟨?_,
    ⟨"Error reading image file ",
      ": " ++ terr ++ ", this is an error in \x60bevy_render\x60.", ?_⟩,
    ⟨"Error reading image file " ++ ctx.path.display ++ ": " ++ terr, ?_⟩⟩
  · simp [ImageLoader.load, hext, hstr, herr]
  · simp [FileTextureError.display, string_append_assoc]
  · simp [FileTextureError.display, string_append_assoc]

theorem C3_witness :
    ImageLoader.load (F := Nat) (I := Nat)
      (fun _ _ _ _ _ _ => Except.error "bad header") ⟨⟨0⟩⟩ (Except.ok [0])
      (ImageLoaderSettings.default Nat) ⟨⟨some ⟨some "png"⟩, "a.png"⟩⟩
      = LoadResult.err (ImageLoaderError.FileTexture ⟨"bad header", "a.png"⟩) :=
  (C3_decode_failure_error (fun _ _ _ _ _ _ => Except.error "bad header") ⟨⟨0⟩⟩
    [0] (ImageLoaderSettings.default Nat) ⟨⟨some ⟨some "png"⟩, "a.png"⟩⟩
    ⟨some "png"⟩ "png" "bad header" rfl rfl rfl).1

/-- Claim C6: when the path has no extension, or its extension is not valid
UTF-8, the load panics (the `unwrap` branch), for every reader (in particular
for one whose read would fail: the read outcome is never consulted, so the
panic happens before any bytes are read) and for every settings value
(in particular with an explicit format, where the extension is never
otherwise used). -/
theorem C6_invalid_extension_panics {F I : Type} (from_buffer : FromBuffer F I)
    (loader : ImageLoader) (reader : Reader) (settings : ImageLoaderSettings F)
    (ctx : LoadContext)
    (h : ctx.path.extension = none ∨
      ∃ os, ctx.path.extension = some os ∧ os.to_str = none) :
    ImageLoader.load from_buffer loader reader settings ctx
      = LoadResult.panic := by
  rcases h with h | ⟨os, h1, h2⟩
  · simp [ImageLoader.load, h]
  · simp [ImageLoader.load, h1, h2]

theorem C6_witness :
    ImageLoader.load (F := Nat) (I := Nat) (fun _ _ _ _ _ _ => Except.ok 0)
      ⟨⟨0⟩⟩ (Except.error "io failure")
      ⟨ImageFormatSetting.Format 5, true, ImageSampler.Default,
        RenderAssetPersistencePolicy.Keep⟩
      ⟨⟨none, "noext"⟩⟩ = LoadResult.panic :=
  C6_invalid_extension_panics (fun _ _ _ _ _ _ => Except.ok 0) ⟨⟨0⟩⟩
    (Except.error "io failure")
    ⟨ImageFormatSetting.Format 5, true, ImageSampler.Default,
      RenderAssetPersistencePolicy.Keep⟩
    ⟨⟨none, "noext"⟩⟩ (Or.inl rfl)

/-- Claim C9: the default settings are `FromExtension`, `is_srgb = true`, the
default sampler, and retention `Keep`. -/
theorem C9_default_settings (F : Type) :
    (ImageLoaderSettings.default F).format = ImageFormatSetting.FromExtension ∧
    (ImageLoaderSettings.default F).is_srgb = true ∧
    (ImageLoaderSettings.default F).sampler = ImageSampler.Default ∧
    (ImageLoaderSettings.default F).cpu_persistent_access =
      RenderAssetPersistencePolicy.Keep :=
  ⟨rfl, rfl, rfl, rfl⟩

/-- Claim C10: a load call never mutates the loader or the settings: in the
state-passing rendering of the call (faithful to the source's shared borrows
and absence of interior mutability), the loader returned to the caller is the
one passed in — in particular its supported-compressed-format set is
unchanged — and the settings value is likewise unchanged, whatever the load's
outcome. -/
theorem C10_load_immutable {F I : Type} (from_buffer : FromBuffer F I)
    (loader : ImageLoader) (reader : Reader) (settings : ImageLoaderSettings F)
    (ctx : LoadContext) :
    (ImageLoader.load_call from_buffer loader reader settings ctx).1 = loader ∧
    (ImageLoader.load_call from_buffer loader reader settings ctx).2.1
      = settings ∧
    (ImageLoader.load_call from_buffer loader reader settings
        ctx).1.supported_compressed_formats
      = loader.supported_compressed_formats :=
  ⟨rfl, rfl, rfl⟩

/-- Claim C4: the extension list the loader reports is exactly
`IMG_FILE_EXTENSIONS`, and for every feature configuration an extension is in
that list iff it is one of the 13 table entries and its backing feature is
compiled in. -/
theorem C4_extensions_exact (cfg : Features) (loader : ImageLoader)
    (e : String) :
    ImageLoader.extensions cfg loader = IMG_FILE_EXTENSIONS cfg ∧
    (e ∈ ImageLoader.extensions cfg loader ↔
      (cfg.basis_universal = true ∧ e = "basis") ∨
      (cfg.bmp = true ∧ e = "bmp") ∨
      (cfg.png = true ∧ e = "png") ∨
      (cfg.dds = true ∧ e = "dds") ∨
      (cfg.tga = true ∧ e = "tga") ∨
      (cfg.jpeg = true ∧ e = "jpg") ∨
      (cfg.jpeg = true ∧ e = "jpeg") ∨
      (cfg.ktx2 = true ∧ e = "ktx2") ∨
      (cfg.webp = true ∧ e = "webp") ∨
      (cfg.pnm = true ∧ e = "pam") ∨
      (cfg.pnm = true ∧ e = "pbm") ∨
      (cfg.pnm = true ∧ e = "pgm") ∨
      (cfg.pnm = true ∧ e = "ppm")) := by
  refine ⟨rfl, ?_⟩
  simp only [ImageLoader.extensions, IMG_FILE_EXTENSIONS, List.mem_append,
    mem_ite_single, or_assoc]

/-- Claim C5: construction from a world with no render device succeeds and
yields the empty supported-compressed-format set `NONE`; with a render device
present, the set is `from_features` of the device's feature flags. -/
theorem C5_from_world_formats (cfg : Features)
    (from_features : Nat → CompressedImageFormats) (world : World) :
    (world.render_device = none →
      (ImageLoader.from_world cfg from_features
          world).1.supported_compressed_formats
        = CompressedImageFormats.NONE) ∧
    (∀ d, world.render_device = some d →
      (ImageLoader.from_world cfg from_features
          world).1.supported_compressed_formats
        = from_features d.features) := by
  constructor
  · intro h
    simp [ImageLoader.from_world, h]
  · intro d h
    simp [ImageLoader.from_world, h]

theorem C5_witness :
    (ImageLoader.from_world cfg_all (fun n => ⟨n⟩)
        ⟨none, none⟩).1.supported_compressed_formats
      = CompressedImageFormats.NONE ∧
    (ImageLoader.from_world cfg_all (fun n => ⟨n⟩)
        ⟨some ⟨5⟩, none⟩).1.supported_compressed_formats
      = ⟨5⟩ :=
  ⟨(C5_from_world_formats cfg_all (fun n => ⟨n⟩) ⟨none, none⟩).1 rfl,
   (C5_from_world_formats cfg_all (fun n => ⟨n⟩) ⟨some ⟨5⟩, none⟩).2 ⟨5⟩ rfl⟩

theorem mem_disabled_iff (cfg : Features) (d : DisabledExtension) :
    d ∈ DISABLED_IMG_FILE_EXTENSIONS cfg ↔
      (cfg.basis_universal = false ∧ d = ⟨"basis", "basis-universal"⟩) ∨
      (cfg.bmp = false ∧ d = ⟨"bmp", "bmp"⟩) ∨
      (cfg.png = false ∧ d = ⟨"png", "png"⟩) ∨
      (cfg.dds = false ∧ d = ⟨"dds", "dds"⟩) ∨
      (cfg.tga = false ∧ d = ⟨"tga", "tga"⟩) ∨
      (cfg.jpeg = false ∧ d = ⟨"jpg", "jpeg"⟩) ∨
      (cfg.jpeg = false ∧ d = ⟨"jpeg", "jpeg"⟩) ∨
      (cfg.ktx2 = false ∧ d = ⟨"ktx2", "ktx2"⟩) ∨
      (cfg.webp = false ∧ d = ⟨"webp", "webp"⟩) ∨
      (cfg.pnm = false ∧ d = ⟨"pam", "pnm"⟩) ∨
      (cfg.pnm = false ∧ d = ⟨"pbm", "pnm"⟩) ∨
      (cfg.pnm = false ∧ d = ⟨"pgm", "pnm"⟩) ∨
      (cfg.pnm = false ∧ d = ⟨"ppm", "pnm"⟩) := by
  simp only [DISABLED_IMG_FILE_EXTENSIONS, List.mem_append, mem_ite_disabled,
    or_assoc]

theorem foldl_register_hints (l : List DisabledExtension) (s : AssetServer) :
    (l.foldl (fun s d => s.register_extension_hint d.extension
        (feature_hint d.feature)) s).hints
      = s.hints ++ l.map (fun d => (d.extension, feature_hint d.feature)) := by
  induction l generalizing s with
  | nil => simp
  | cons d l ih =>
    rw [List.foldl_cons, ih]
    simp [AssetServer.register_extension_hint]

theorem AssetServer.eq_of_hints {s t : AssetServer} (h : s.hints = t.hints) :
    s = t := by
  cases s
  cases t
  simpa using h

theorem hint_of_disabled (cfg : Features) (d : DisabledExtension)
    (hd : d ∈ DISABLED_IMG_FILE_EXTENSIONS cfg) :
    (d.extension, feature_hint d.feature) ∈ hint_table cfg := by
  simp only [hint_table, List.mem_map]
  exact ⟨d, hd, rfl⟩

/-- Claim C7: at construction, when no asset server is present the world is
untouched (no hints registered); when one is present, exactly the
(extension, hint) pairs of `hint_table` are appended to its registered hints;
a pair for extension `e` is in that table iff `e` is a table entry whose
backing feature is compiled out (so never for an enabled extension); and every
registered hint string has the form `enabling bevy feature '<feature>'`. -/
theorem C7_disabled_hints (cfg : Features)
    (from_features : Nat → CompressedImageFormats) (world : World)
    (e : String) :
    (world.asset_server = none →
      (ImageLoader.from_world cfg from_features world).2 = world) ∧
    (∀ server, world.asset_server = some server →
      (ImageLoader.from_world cfg from_features world).2.asset_server
        = some ⟨server.hints ++ hint_table cfg⟩) ∧
    ((∃ hint, (e, hint) ∈ hint_table cfg) ↔
      (cfg.basis_universal = false ∧ e = "basis") ∨
      (cfg.bmp = false ∧ e = "bmp") ∨
      (cfg.png = false ∧ e = "png") ∨
      (cfg.dds = false ∧ e = "dds") ∨
      (cfg.tga = false ∧ e = "tga") ∨
      (cfg.jpeg = false ∧ e = "jpg") ∨
      (cfg.jpeg = false ∧ e = "jpeg") ∨
      (cfg.ktx2 = false ∧ e = "ktx2") ∨
      (cfg.webp = false ∧ e = "webp") ∨
      (cfg.pnm = false ∧ e = "pam") ∨
      (cfg.pnm = false ∧ e = "pbm") ∨
      (cfg.pnm = false ∧ e = "pgm") ∨
      (cfg.pnm = false ∧ e = "ppm")) ∧
    (∀ hint, (e, hint) ∈ hint_table cfg →
      ∃ feature, hint = feature_hint feature) := by
  refine ⟨?_, ?_, ?_, ?_⟩
  · intro h
    simp [ImageLoader.from_world, h]
  · intro server hs
    have hfold : (DISABLED_IMG_FILE_EXTENSIONS cfg).foldl
        (fun s d => s.register_extension_hint d.extension
          (feature_hint d.feature)) server
        = ⟨server.hints ++ hint_table cfg⟩ :=
      AssetServer.eq_of_hints (by
        rw [foldl_register_hints]
        rfl)
    simp [ImageLoader.from_world, hs, hfold]
  · constructor
    · rintro ⟨hint, h⟩
      simp only [hint_table, List.mem_map] at h
      obtain ⟨d, hd, hdd⟩ := h
      have he : d.extension = e := by
        have hfst := congrArg Prod.fst hdd
        simpa using hfst
      subst he
      rw [mem_disabled_iff] at hd
      rcases hd with ⟨h, rfl⟩ | ⟨h, rfl⟩ | ⟨h, rfl⟩ | ⟨h, rfl⟩ | ⟨h, rfl⟩ |
        ⟨h, rfl⟩ | ⟨h, rfl⟩ | ⟨h, rfl⟩ | ⟨h, rfl⟩ | ⟨h, rfl⟩ | ⟨h, rfl⟩ |
        ⟨h, rfl⟩ | ⟨h, rfl⟩ <;> simp [h]
    · intro h
      rcases h with ⟨h, rfl⟩ | ⟨h, rfl⟩ | ⟨h, rfl⟩ | ⟨h, rfl⟩ | ⟨h, rfl⟩ |
        ⟨h, rfl⟩ | ⟨h, rfl⟩ | ⟨h, rfl⟩ | ⟨h, rfl⟩ | ⟨h, rfl⟩ | ⟨h, rfl⟩ |
        ⟨h, rfl⟩ | ⟨h, rfl⟩
      · exact ⟨feature_hint "basis-universal", hint_of_disabled cfg
          ⟨"basis", "basis-universal"⟩ (by simp [mem_disabled_iff, h])⟩
      · exact ⟨feature_hint "bmp", hint_of_disabled cfg
          ⟨"bmp", "bmp"⟩ (by simp [mem_disabled_iff, h])⟩
      · exact ⟨feature_hint "png", hint_of_disabled cfg
          ⟨"png", "png"⟩ (by simp [mem_disabled_iff, h])⟩
      · exact ⟨feature_hint "dds", hint_of_disabled cfg
          ⟨"dds", "dds"⟩ (by simp [mem_disabled_iff, h])⟩
      · exact ⟨feature_hint "tga", hint_of_disabled cfg
          ⟨"tga", "tga"⟩ (by simp [mem_disabled_iff, h])⟩
      · exact ⟨feature_hint "jpeg", hint_of_disabled cfg
          ⟨"jpg", "jpeg"⟩ (by simp [mem_disabled_iff, h])⟩
      · exact ⟨feature_hint "jpeg", hint_of_disabled cfg
          ⟨"jpeg", "jpeg"⟩ (by simp [mem_disabled_iff, h])⟩
      · exact ⟨feature_hint "ktx2", hint_of_disabled cfg
          ⟨"ktx2", "ktx2"⟩ (by simp [mem_disabled_iff, h])⟩
      · exact ⟨feature_hint "webp", hint_of_disabled cfg
          ⟨"webp", "webp"⟩ (by simp [mem_disabled_iff, h])⟩
      · exact ⟨feature_hint "pnm", hint_of_disabled cfg
          ⟨"pam", "pnm"⟩ (by simp [mem_disabled_iff, h])⟩
      · exact ⟨feature_hint "pnm", hint_of_disabled cfg
          ⟨"pbm", "pnm"⟩ (by simp [mem_disabled_iff, h])⟩
      · exact ⟨feature_hint "pnm", hint_of_disabled cfg
          ⟨"pgm", "pnm"⟩ (by simp [mem_disabled_iff, h])⟩
      · exact ⟨feature_hint "pnm", hint_of_disabled cfg
          ⟨"ppm", "pnm"⟩ (by simp [mem_disabled_iff, h])⟩
  · intro hint h
    simp only [hint_table, List.mem_map] at h
    obtain ⟨d, _, hdd⟩ := h
    have hsnd := congrArg Prod.snd hdd
    exact ⟨d.feature, by simpa using hsnd.symm⟩

theorem C7_witness :
    (ImageLoader.from_world cfg_all (fun n => ⟨n⟩) ⟨none, none⟩).2
      = ⟨none, none⟩ ∧
    (ImageLoader.from_world cfg_png_only (fun n => ⟨n⟩)
        ⟨none, some ⟨[]⟩⟩).2.asset_server
      = some ⟨[] ++ hint_table cfg_png_only⟩ :=
  ⟨(C7_disabled_hints cfg_all (fun n => ⟨n⟩) ⟨none, none⟩ "png").1 rfl,
   (C7_disabled_hints cfg_png_only (fun n => ⟨n⟩) ⟨none, some ⟨[]⟩⟩
      "png").2.1 ⟨[]⟩ rfl⟩

/-- Claim C8: every failure of a load call (on a path with a valid extension)
is one of exactly the two typed kinds, returned synchronously as the result:
a read error is propagated as-is into the `Io` variant; a decode error becomes
the `FileTexture` variant; and the call returns an error iff the read or the
decode fails (when both succeed the result is the decoded image). -/
theorem C8_error_cases {F I : Type} (from_buffer : FromBuffer F I)
    (loader : ImageLoader) (reader : Reader) (settings : ImageLoaderSettings F)
    (ctx : LoadContext) (os : OsStr) (ext : String)
    (hext : ctx.path.extension = some os) (hstr : os.to_str = some ext) :
    (∀ e, reader = Except.error e →
      ImageLoader.load from_buffer loader reader settings ctx
        = LoadResult.err (ImageLoaderError.Io e)) ∧
    (∀ bytes terr, reader = Except.ok bytes →
      from_buffer bytes (resolved_image_type settings.format ext)
          loader.supported_compressed_formats settings.is_srgb settings.sampler
          settings.cpu_persistent_access = Except.error terr →
      ImageLoader.load from_buffer loader reader settings ctx
        = LoadResult.err (ImageLoaderError.FileTexture
            ⟨terr, ctx.path.display⟩)) ∧
    (∀ bytes image, reader = Except.ok bytes →
      from_buffer bytes (resolved_image_type settings.format ext)
          loader.supported_compressed_formats settings.is_srgb settings.sampler
          settings.cpu_persistent_access = Except.ok image →
      ImageLoader.load from_buffer loader reader settings ctx
        = LoadResult.ok image) ∧
    ((∃ x, ImageLoader.load from_buffer loader reader settings ctx
        = LoadResult.err x) ↔
      (∃ e, reader = Except.error e) ∨
      (∃ bytes terr, reader = Except.ok bytes ∧
        from_buffer bytes (resolved_image_type settings.format ext)
          loader.supported_compressed_formats settings.is_srgb settings.sampler
          settings.cpu_persistent_access = Except.error terr)) := by
  refine ⟨?_, ?_, ?_, ?_⟩
  · rintro e rfl
    simp [ImageLoader.load, hext, hstr]
  · rintro bytes terr rfl herr
    simp [ImageLoader.load, hext, hstr, herr]
  · rintro bytes image rfl himg
    simp [ImageLoader.load, hext, hstr, himg]
  · cases reader with
    | error e => simp [ImageLoader.load, hext, hstr]
    | ok bytes =>
      cases hfb : from_buffer bytes (resolved_image_type settings.format ext)
          loader.supported_compressed_formats settings.is_srgb settings.sampler
          settings.cpu_persistent_access with
      | error terr => simp [ImageLoader.load, hext, hstr, hfb]
      | ok image => simp [ImageLoader.load, hext, hstr, hfb]

theorem C8_witness :
    ImageLoader.load (F := Nat) (I := Nat) (fun _ _ _ _ _ _ => Except.ok 0)
      ⟨⟨0⟩⟩ (Except.error "disk failure") (ImageLoaderSettings.default Nat)
      ⟨⟨some ⟨some "png"⟩, "a.png"⟩⟩
      = LoadResult.err (ImageLoaderError.Io "disk failure") :=
  (C8_error_cases (fun _ _ _ _ _ _ => Except.ok 0) ⟨⟨0⟩⟩
    (Except.error "disk failure") (ImageLoaderSettings.default Nat)
    ⟨⟨some ⟨some "png"⟩, "a.png"⟩⟩ ⟨some "png"⟩ "png" rfl rfl).1
    "disk failure" rfl

end ImageLoaderSpec
